import Mathlib

/-!
Verification of the sales-dashboard ingestion and reconciliation engine
(`app/services/services.py`).  The Python functions are shallowly embedded
as executable Lean definitions over rational arithmetic (floats are modelled
as exact rationals; IEEE NaN and infinity, which pandas produces on division
by zero, are modelled by an explicit value type).  Strings are modelled as
lists of characters; the external file loads are modelled by passing the
already-loaded tables as explicit parameters.
-/

/-- Strings manipulated by the engine, as plain character lists. -/
abbrev Str := List Char

/-- Shorthand turning a string literal into a character list. -/
def s (x : String) : Str := x.data

/-- Whitespace recognised by Python's str.strip (ASCII part). -/
def wsB (c : Char) : Bool :=
  c = ' ' || c = '\t' || c = '\n' || c = '\r' || c = '\x0b' || c = '\x0c'

/-- Python str.strip: drop whitespace from both ends. -/
def stripL (l : Str) : Str :=
  ((l.dropWhile wsB).reverse.dropWhile wsB).reverse

/-- Characters deleted by the column normalizer `norm` in services.py:
the BOM, parentheses, hyphen, underscore and the space. -/
def normDropB (c : Char) : Bool :=
  c = '\uFEFF' || c = '(' || c = ')' || c = '-' || c = '_' || c = ' '

/-- Column normalizer `norm` from services.py: lower-case, delete the
characters above, then strip surrounding whitespace. -/
def norm (l : Str) : Str :=
  stripL ((l.map Char.toLower).filter (fun c => !normDropB c))

-- ----------------------------------------------------------------
-- helper lemmas for idempotence of the normalizer
-- ----------------------------------------------------------------

theorem charToNat_ofNat {n : ℕ} (h : n < 0xd800) : (Char.ofNat n).toNat = n := by
  rw [Char.ofNat, dif_pos (Or.inl h)]
  simp [Char.ofNatAux, Char.toNat, UInt32.toNat]

theorem toLower_toLower (c : Char) : c.toLower.toLower = c.toLower := by
  unfold Char.toLower
  by_cases h : c.toNat ≥ 65 ∧ c.toNat ≤ 90
  · rw [if_pos h]
    have hv : (Char.ofNat (c.toNat + 32)).toNat = c.toNat + 32 :=
      charToNat_ofNat (by omega)
    rw [if_neg (by rw [hv]; omega)]
  · rw [if_neg h, if_neg h]

theorem dropWhile_idem (p : α → Bool) (l : List α) :
    (l.dropWhile p).dropWhile p = l.dropWhile p := by
  induction l with
  | nil => rfl
  | cons c t ih =>
    by_cases h : p c
    · simp [List.dropWhile, h, ih]
    · simp [List.dropWhile, h]

theorem dropWhile_getLast? (p : α → Bool) (l : List α)
    (h : l.dropWhile p ≠ []) : (l.dropWhile p).getLast? = l.getLast? := by
  induction l with
  | nil => simp at h
  | cons c t ih =>
    by_cases hc : p c
    · rw [List.dropWhile_cons_of_pos hc] at h ⊢
      rw [ih h]
      cases t with
      | nil => simp [List.dropWhile] at h
      | cons x r => exact (List.getLast?_cons_cons ..).symm
    · rw [List.dropWhile_cons_of_neg hc]

theorem dropWhile_eq_self_of_head? (p : α → Bool) (l : List α)
    (h : ∀ c, l.head? = some c → p c = false) : l.dropWhile p = l := by
  cases l with
  | nil => rfl
  | cons c t => simp [List.dropWhile, h c rfl]

theorem stripL_idem (l : Str) : stripL (stripL l) = stripL l := by
  unfold stripL
  set u := l.dropWhile wsB with hu
  set v := u.reverse.dropWhile wsB with hv
  have hidem : v.dropWhile wsB = v := by rw [hv, dropWhile_idem]
  have hhead : ∀ c, v.reverse.head? = some c → wsB c = false := by
    intro c hc
    rw [List.head?_reverse] at hc
    have hvne : v ≠ [] := by
      intro he
      rw [he] at hc
      simp at hc
    have hlast : v.getLast? = u.reverse.getLast? := dropWhile_getLast? _ _ hvne
    rw [hlast] at hc
    rw [List.getLast?_eq_head?_reverse, List.reverse_reverse] at hc
    -- the head of u is not whitespace since u = dropWhile wsB l
    rw [hu] at hc
    cases l with
    | nil => simp [List.dropWhile] at hc
    | cons a t =>
      by_cases ha : wsB a
      · -- recurse structurally: head of dropWhile is never wsB
        have : ∀ (m : List Char) c, (m.dropWhile wsB).head? = some c → wsB c = false := by
          intro m
          induction m with
          | nil => intro c hc2; simp [List.dropWhile] at hc2
          | cons b r ih =>
            intro c hc2
            by_cases hb : wsB b
            · rw [List.dropWhile_cons_of_pos hb] at hc2
              exact ih c hc2
            · rw [List.dropWhile_cons_of_neg hb] at hc2
              simp at hc2
              subst hc2
              simpa using hb
        exact this (a :: t) c hc
      · rw [List.dropWhile_cons_of_neg ha] at hc
        simp at hc
        subst hc
        simpa using ha
  rw [dropWhile_eq_self_of_head? wsB v.reverse hhead]
  rw [List.reverse_reverse, hidem]

theorem mem_stripL {c : Char} {l : Str} (h : c ∈ stripL l) : c ∈ l := by
  unfold stripL at h
  rw [List.mem_reverse] at h
  have h1 := (List.dropWhile_sublist (l := (l.dropWhile wsB).reverse) wsB).mem h
  rw [List.mem_reverse] at h1
  exact (List.dropWhile_sublist wsB).mem h1

/-- C10 core: the column normalizer is idempotent on character lists. -/
theorem norm_idem_aux (l : Str) : norm (norm l) = norm l := by
  have hmem : ∀ c ∈ norm l, c ∈ l.map Char.toLower := by
    intro c hc
    have h1 : c ∈ (l.map Char.toLower).filter (fun c => !normDropB c) :=
      mem_stripL hc
    exact (List.filter_sublist _).mem h1
  have hlow : (norm l).map Char.toLower = norm l := by
    have : ∀ c ∈ norm l, Char.toLower c = c := by
      intro c hc
      rcases List.mem_map.mp (hmem c hc) with ⟨a, _, rfl⟩
      exact toLower_toLower a
    calc (norm l).map Char.toLower = (norm l).map id := List.map_congr_left this
      _ = norm l := List.map_id _
  have hfil : (norm l).filter (fun c => !normDropB c) = norm l := by
    rw [List.filter_eq_self]
    intro a ha
    have h1 : a ∈ (l.map Char.toLower).filter (fun c => !normDropB c) :=
      mem_stripL ha
    exact (List.mem_filter.mp h1).2
  show stripL (((norm l).map Char.toLower).filter (fun c => !normDropB c)) = norm l
  rw [hlow, hfil]
  exact stripL_idem _

-- ----------------------------------------------------------------
-- monetary value parser (clean_money in services.py)
-- ----------------------------------------------------------------

/-- Numeric value of a digit list (most significant first). -/
def digitsVal (l : Str) : ℕ :=
  l.foldl (fun a c => a * 10 + (c.toNat - 48)) 0

/-- Exponent part of a Python float literal: optional sign then digits. -/
def parseExpPart (l : Str) : Option ℤ :=
  let (sg, l1) : ℤ × Str :=
    match l with
    | '-' :: r => (-1, r)
    | '+' :: r => (1, r)
    | r => (1, r)
  if l1 ≠ [] ∧ l1.all Char.isDigit then some (sg * digitsVal l1) else none

/-- Python float literal parser (decimal forms: sign, integer part,
fractional part, optional exponent).  Returns none exactly when Python's
float() raises ValueError on such a literal.  Special textual floats
(nan, inf) and digit-group underscores are outside the inputs modelled. -/
def parseFloat (l : Str) : Option ℚ :=
  let (sg, l1) : ℚ × Str :=
    match l with
    | '-' :: r => (-1, r)
    | '+' :: r => (1, r)
    | r => (1, r)
  let ip := l1.takeWhile Char.isDigit
  let r1 := l1.dropWhile Char.isDigit
  let (fp, r2) : Str × Str :=
    match r1 with
    | '.' :: r => (r.takeWhile Char.isDigit, r.dropWhile Char.isDigit)
    | r => ([], r)
  if ip = [] ∧ fp = [] then none
  else
    let mant : ℚ := sg * ((digitsVal ip : ℚ) + (digitsVal fp : ℚ) / 10 ^ fp.length)
    match r2 with
    | [] => some mant
    | 'e' :: r3 => (parseExpPart r3).map (fun e => mant * 10 ^ e)
    | 'E' :: r3 => (parseExpPart r3).map (fun e => mant * 10 ^ e)
    | _ => none

/-- Calendar dates (pandas Timestamps are modelled by their date part). -/
structure Date where
  y : ℕ
  m : ℕ
  d : ℕ
deriving DecidableEq, Repr

/-- Lexicographic comparison of dates. -/
def dateLE (a b : Date) : Bool :=
  a.y < b.y || (a.y = b.y && (a.m < b.m || (a.m = b.m && a.d ≤ b.d)))

/-- Cell of a loaded table: missing value (NaN/NaT), text, number, or date. -/
inductive Cell where
  | na
  | str (v : Str)
  | num (q : ℚ)
  | date (dt : Date)
deriving DecidableEq, Repr

/-- Remove every occurrence of a character (Python str.replace with one char). -/
def removeChar (c : Char) (l : Str) : Str :=
  l.filter (fun x => x ≠ c)

/-- Python single-pass left-to-right replace of the substring INR by the
empty string, as done by clean_money. -/
def removeINR : Str → Str
  | 'I' :: 'N' :: 'R' :: r => removeINR r
  | c :: r => c :: removeINR r
  | [] => []

/-- Decimal rendering of a natural number. -/
def natStr (n : ℕ) : Str := Nat.toDigits 10 n

/-- Decimal rendering of an integer. -/
def intStr (n : ℤ) : Str :=
  if n < 0 then '-' :: natStr n.natAbs else natStr n.natAbs

/-- Two digit zero padding, as in strftime %d. -/
def pad2 (n : ℕ) : Str := if n < 10 then '0' :: natStr n else natStr n

/-- Rendering of a date cell as text (str of a Timestamp). -/
def dateStr (dt : Date) : Str :=
  natStr dt.y ++ s "-" ++ pad2 dt.m ++ s "-" ++ pad2 dt.d

/-- Rendering of a float as text (str in Python); integral values print
with a trailing .0 as Python does. -/
def qStr (q : ℚ) : Str :=
  if q.den = 1 then intStr q.num ++ s ".0"
  else intStr q.num ++ s "/" ++ natStr q.den

/-- Python str() of a cell value; str of NaN is the text nan. -/
def cellStr : Cell → Str
  | .na => s "nan"
  | .str v => v
  | .num q => qStr q
  | .date dt => dateStr dt

/-- Cleanup pipeline of clean_money: remove the rupee sign, then commas,
then the INR token, then strip whitespace. -/
def cleanupMoney (v : Str) : Str :=
  stripL (removeINR (removeChar ',' (removeChar '₹' v)))

/-- Model of clean_money in services.py.  pd.isna values give 0.0; other
values are rendered to text, the rupee sign, commas and the INR token are
removed, the remainder is stripped and parsed as a float.  A none result
models the ValueError float() raises on an unparsable remainder. -/
def clean_money : Cell → Option ℚ
  | .na => some (0 : ℚ)
  | .num q => some q
  | c => parseFloat (cleanupMoney (cellStr c))

-- ----------------------------------------------------------------
-- loaded tables
-- ----------------------------------------------------------------

/-- A loaded spreadsheet/dataframe: header names and rows of cells. -/
structure RawTable where
  headers : List Str
  rows : List (List Cell)
deriving DecidableEq, Repr

/-- pandas df.empty: no rows or no columns. -/
def RawTable.isEmptyT (t : RawTable) : Bool :=
  t.rows.isEmpty || t.headers.isEmpty

/-- Position of a column by (exact) header name, first match. -/
def RawTable.colIdx (t : RawTable) (name : Str) : Option ℕ :=
  t.headers.findIdx? (fun h => h = name)

def RawTable.hasCol (t : RawTable) (name : Str) : Bool :=
  (t.colIdx name).isSome

/-- Cell of a row at a column position (missing cells of a short row read
as NaN). -/
def getCell (r : List Cell) (i : ℕ) : Cell := r.getD i .na

/-- Values of one column, top to bottom. -/
def RawTable.colCells (t : RawTable) (i : ℕ) : List Cell :=
  t.rows.map (fun r => getCell r i)

/-- df.columns = [norm(c) for c in df.columns]. -/
def RawTable.normHeaders (t : RawTable) : RawTable :=
  ⟨t.headers.map norm, t.rows⟩

/-- Apply a function to one column in place. -/
def RawTable.mapCol (t : RawTable) (i : ℕ) (f : Cell → Cell) : RawTable :=
  ⟨t.headers, t.rows.map (fun r => r.set i (f (getCell r i)))⟩

/-- ASCII upper-casing of a character. -/
def upChar (c : Char) : Char :=
  if c.toNat ≥ 97 ∧ c.toNat ≤ 122 then Char.ofNat (c.toNat - 32) else c

/-- astype(str).str.upper().str.strip() applied to one cell. -/
def upperTrimCell (c : Cell) : Cell :=
  .str (stripL ((cellStr c).map upChar))

/-- Model of load_planning_main: the Main sheet of the month's planning
workbook (an external file, passed here as an optional already-loaded
table; none models a missing or unreadable file).  Normalizes headers,
requires an asin column, and upper-cases/strips the asin values. -/
def load_planning_main (planRaw : Option RawTable) : RawTable :=
  match planRaw with
  | none => ⟨[], []⟩
  | some t =>
    if t.isEmptyT then ⟨[], []⟩
    else
      let t1 := t.normHeaders
      match t1.colIdx (s "asin") with
      | none => ⟨[], []⟩
      | some i => t1.mapCol i upperTrimCell

/-- Strings of the asin column of a loaded Main plan. -/
def planAsins (plan : RawTable) : List Str :=
  match plan.colIdx (s "asin") with
  | none => []
  | some i => (plan.colCells i).map cellStr

-- ----------------------------------------------------------------
-- channel row builder (build_rows in services.py)
-- ----------------------------------------------------------------

/-- Canonical ledger row produced by the ingestor. -/
structure LedgerRow where
  date : Date
  account : Str
  asin : Str
  sales : ℚ
  net_sales : ℚ
deriving DecidableEq, Repr

/-- GST_RATE constant. -/
def GST_RATE : ℚ := 18 / 100

/-- Sequential fallible map; an error models a Python exception raised
while applying a function over a column. -/
def exMap (f : α → Except String β) : List α → Except String (List β)
  | [] => .ok []
  | a :: t =>
    match f a with
    | .error e => .error e
    | .ok b =>
      match exMap f t with
      | .error e => .error e
      | .ok bs => .ok (b :: bs)

/-- clean_money lifted to the exception monad: a none result is the
ValueError that float() raises. -/
def cleanMoneyE (c : Cell) : Except String ℚ :=
  match clean_money c with
  | none => .error "ValueError: could not convert string to float"
  | some q => .ok q

/-- Index of the ASIN source column: a parentasin column is preferred
over a plain asin column. -/
def asinColIdx (t : RawTable) : Option ℕ :=
  if t.hasCol (s "parentasin") then t.colIdx (s "parentasin")
  else t.colIdx (s "asin")

/-- Upper-cased, trimmed ASIN text of a raw row. -/
def rowAsin (r : List Cell) (i : ℕ) : Str :=
  stripL ((cellStr (getCell r i)).map upChar)

/-- Model of build_rows in services.py.  The raw export is passed as the
already-loaded table (load_file and the vendor banner-row skip are the
external loader's concern); the month's Main planning sheet is passed as
planRaw.  An .error result models an uncaught exception; returned rows
carry the five canonical fields. -/
def build_rows (df : RawTable) (account : Str) (sales_date : Date)
    (planRaw : Option RawTable) (is_vendor : Bool) :
    Except String (List LedgerRow) :=
  if df.isEmptyT then .ok []
  else
    let df1 := df.normHeaders
    match asinColIdx df1 with
    | none => .ok []
    | some i =>
      let plan := load_planning_main planRaw
      if plan.isEmptyT then .ok []
      else
        let allowed := planAsins plan
        let kept := df1.rows.filter (fun r => rowAsin r i ∈ allowed)
        if kept.isEmpty then .ok []
        else
          let revName := if is_vendor then s "orderedrevenue" else s "orderedproductsales"
          match df1.colIdx revName with
          | none => .ok []
          | some j =>
            exMap (fun r => do
              let g ← cleanMoneyE (getCell r j)
              .ok { date := sales_date, account := account, asin := rowAsin r i,
                    sales := g,
                    net_sales := if is_vendor then g else g / (1 + GST_RATE) }) kept

-- ----------------------------------------------------------------
-- rounding (Python round / numpy round: half to even)
-- ----------------------------------------------------------------

/-- Round a rational to the nearest integer, ties to even (the float
rounding used by round(), Series.round and numpy). -/
def rhe (q : ℚ) : ℤ :=
  if q - (⌊q⌋ : ℚ) < 1 / 2 then ⌊q⌋
  else if 1 / 2 < q - (⌊q⌋ : ℚ) then ⌊q⌋ + 1
  else if 2 ∣ ⌊q⌋ then ⌊q⌋ else ⌊q⌋ + 1

/-- round(x, p). -/
def roundTo (p : ℕ) (q : ℚ) : ℚ := (rhe (q * 10 ^ p) : ℚ) / 10 ^ p

-- ----------------------------------------------------------------
-- sorting and grouping (pandas groupby sorts keys ascending)
-- ----------------------------------------------------------------

/-- Ordered insert for insertion sort. -/
def insertSorted (le : α → α → Bool) (x : α) : List α → List α
  | [] => [x]
  | y :: ys => if le x y then x :: y :: ys else y :: insertSorted le x ys

/-- Insertion sort with a boolean comparison. -/
def sortL (le : α → α → Bool) (l : List α) : List α :=
  l.foldr (insertSorted le) []

theorem insertSorted_perm (le : α → α → Bool) (x : α) (l : List α) :
    (insertSorted le x l).Perm (x :: l) := by
  induction l with
  | nil => exact List.Perm.refl _
  | cons y ys ih =>
    by_cases h : le x y
    · simp [insertSorted, h]
    · simp only [insertSorted, h, if_false, Bool.false_eq_true]
      exact ((ih.cons y).trans (List.Perm.swap x y ys))

theorem sortL_perm (le : α → α → Bool) (l : List α) : (sortL le l).Perm l := by
  induction l with
  | nil => exact List.Perm.refl _
  | cons x t ih =>
    exact (insertSorted_perm le x (sortL le t)).trans (ih.cons x)

/-- Distinct dates of a ledger slice, ascending (groupby key order). -/
def sortedDates (df : List LedgerRow) : List Date :=
  sortL dateLE ((df.map (fun r => r.date)).dedup)

/-- Net sales total of the rows of one date. -/
def dayNet (df : List LedgerRow) (d : Date) : ℚ :=
  ((df.filter (fun r => r.date = d)).map (fun r => r.net_sales)).sum

/-- groupby("date")["net_sales"].sum(): one (date, total) pair per
distinct date, ascending. -/
def groupDates (df : List LedgerRow) : List (Date × ℚ) :=
  (sortedDates df).map (fun d => (d, dayNet df d))

-- ----------------------------------------------------------------
-- pandas float values including the results of division by zero
-- ----------------------------------------------------------------

/-- Float values as pandas produces them: a finite value, NaN, or a
signed infinity. -/
inductive PV where
  | num (q : ℚ)
  | nan
  | inf
  | ninf
deriving DecidableEq, Repr

/-- Elementwise float division as pandas performs it: x/0 is NaN for
x = 0 and a signed infinity otherwise. -/
def pvDiv (a b : ℚ) : PV :=
  if b = 0 then
    if a = 0 then .nan else if 0 < a then .inf else .ninf
  else .num (a / b)

/-- Multiplication of such a value by a positive constant. -/
def pvMulPos (p : PV) (k : ℚ) : PV :=
  match p with
  | .num q => .num (q * k)
  | x => x

/-- Series.round on such a value (NaN and infinities are unchanged). -/
def pvRound (p : ℕ) : PV → PV
  | .num q => .num (roundTo p q)
  | x => x

/-- Text of a float that carries at most one decimal digit, as str()
prints it. -/
def q1Str (q : ℚ) : Str :=
  if (q * 10).den = 1 then
    let n := (q * 10).num
    (if n < 0 then s "-" else []) ++ natStr (n.natAbs / 10) ++ s "." ++ natStr (n.natAbs % 10)
  else qStr q

/-- astype(str) on a pandas float value. -/
def pvStr : PV → Str
  | .num q => q1Str q
  | .nan => s "nan"
  | .inf => s "inf"
  | .ninf => s "-inf"

-- ----------------------------------------------------------------
-- KPI calculator (calculate_kpis in services.py)
-- ----------------------------------------------------------------

/-- strftime("%b").lower() for month numbers. -/
def monthAbbrevLower (m : ℕ) : Str :=
  match m with
  | 1 => s "jan" | 2 => s "feb" | 3 => s "mar" | 4 => s "apr"
  | 5 => s "may" | 6 => s "jun" | 7 => s "jul" | 8 => s "aug"
  | 9 => s "sep" | 10 => s "oct" | 11 => s "nov" | 12 => s "dec"
  | _ => []

/-- Numeric value of a cell; text and missing values carry none (pandas
column sums skip missing values). -/
def cellQ? : Cell → Option ℚ
  | .num q => some q
  | _ => none

/-- Sum of the numeric values of a column (Series.sum with skipna). -/
def RawTable.colSum (t : RawTable) (name : Str) : ℚ :=
  match t.colIdx name with
  | none => 0
  | some i => ((t.colCells i).filterMap cellQ?).sum

/-- Name of the month-specific projected-goal column for a reference date. -/
def monthlyCol (ref : Date) : Str := monthAbbrevLower ref.m ++ s "goalprojected"

/-- Guard of calculate_kpis: non-empty slice, non-empty plan, and both
target columns present. -/
def kpiGuard (df : List LedgerRow) (ref : Date) (planRaw : Option RawTable) : Bool :=
  let plan := load_planning_main planRaw
  !df.isEmpty && !plan.isEmptyT &&
    plan.hasCol (monthlyCol ref) && plan.hasCol (s "perdaygoalprojected")

/-- Count of distinct dates in the slice (nunique). -/
def nDays (df : List LedgerRow) : ℕ := ((df.map (fun r => r.date)).dedup).length

/-- per_day_target * days, before rounding. -/
def kpiTargetTill (df : List LedgerRow) (planRaw : Option RawTable) : ℚ :=
  (load_planning_main planRaw).colSum (s "perdaygoalprojected") * (nDays df : ℚ)

/-- Direct net-sales total of a slice, before rounding. -/
def kpiActual (df : List LedgerRow) : ℚ := (df.map (fun r => r.net_sales)).sum

/-- KPI snapshot returned to the dashboard. -/
structure KPISnapshot where
  monthly_target : ℚ
  target_till : ℚ
  actual : ℚ
  achievement : ℚ
  pace : ℚ
deriving DecidableEq, Repr

/-- All-zero snapshot returned on the guard paths. -/
def zeroKPI : KPISnapshot := ⟨0, 0, 0, 0, 0⟩

/-- Model of calculate_kpis in services.py.  The planning sheet is passed
as the already-loaded optional table.  The three monetary outputs are
rounded to one decimal; the two ratios are not, and divide only when the
unrounded target-till value is nonzero (Python if target_till). -/
def calculate_kpis (df : List LedgerRow) (ref : Date)
    (planRaw : Option RawTable) : KPISnapshot :=
  if kpiGuard df ref planRaw then
    let plan := load_planning_main planRaw
    let tt := kpiTargetTill df planRaw
    let actual := kpiActual df
    { monthly_target := roundTo 1 (plan.colSum (monthlyCol ref)),
      target_till := roundTo 1 tt,
      actual := roundTo 1 actual,
      achievement := if tt ≠ 0 then actual / tt else 0,
      pace := if tt ≠ 0 then actual / tt else 0 }
  else zeroKPI

-- ----------------------------------------------------------------
-- day-wise and month-to-date aggregators
-- ----------------------------------------------------------------

/-- Record returned per day by day_wise_performance. -/
structure DayRec where
  date : Date
  net_sales : ℚ
  actual : ℚ
  target : ℚ
  achieved : PV
deriving DecidableEq, Repr

/-- Guard shared by day_wise_performance and mtd_chart: non-empty slice,
non-empty plan with the per-day target column. -/
def dwGuard (df : List LedgerRow) (planRaw : Option RawTable) : Bool :=
  let plan := load_planning_main planRaw
  !df.isEmpty && !plan.isEmptyT && plan.hasCol (s "perdaygoalprojected")

/-- Sum of the per-day goal column of the plan. -/
def perDayTarget (planRaw : Option RawTable) : ℚ :=
  (load_planning_main planRaw).colSum (s "perdaygoalprojected")

/-- Model of day_wise_performance in services.py. -/
def day_wise_performance (df : List LedgerRow) (planRaw : Option RawTable) :
    List DayRec :=
  if dwGuard df planRaw then
    let pdt := perDayTarget planRaw
    (groupDates df).map (fun p =>
      { date := p.1, net_sales := p.2, actual := p.2, target := pdt,
        achieved := pvRound 2 (pvDiv p.2 pdt) })
  else []

/-- Cumulative sums of a list of rationals. -/
def cumsum : List ℚ → List ℚ
  | [] => []
  | x :: t => x :: (cumsum t).map (fun y => x + y)

/-- Cumulative target series before rounding: per_day_target * (i + 1)
keyed to position in the slice. -/
def mtdTargets (pdt : ℚ) (n : ℕ) : List ℚ :=
  (List.range n).map (fun i : ℕ => pdt * ((i : ℚ) + 1))

/-- strftime("%d %b") labels. -/
def monthAbbrevCap (m : ℕ) : Str :=
  match m with
  | 1 => s "Jan" | 2 => s "Feb" | 3 => s "Mar" | 4 => s "Apr"
  | 5 => s "May" | 6 => s "Jun" | 7 => s "Jul" | 8 => s "Aug"
  | 9 => s "Sep" | 10 => s "Oct" | 11 => s "Nov" | 12 => s "Dec"
  | _ => []

def dateLabel (dt : Date) : Str := pad2 dt.d ++ s " " ++ monthAbbrevCap dt.m

/-- Chart series returned by mtd_chart. -/
structure MTDChart where
  labels : List Str
  actual : List ℚ
  target : List ℚ
deriving DecidableEq, Repr

/-- Unrounded cumulative actual series of mtd_chart. -/
def mtdActualExact (df : List LedgerRow) : List ℚ :=
  cumsum ((groupDates df).map (fun p => p.2))

/-- Unrounded cumulative target series of mtd_chart. -/
def mtdTargetExact (df : List LedgerRow) (planRaw : Option RawTable) : List ℚ :=
  if dwGuard df planRaw then mtdTargets (perDayTarget planRaw) (groupDates df).length
  else []

/-- Model of mtd_chart in services.py: cumulative actual and target
series rounded to one decimal, with day-and-month labels. -/
def mtd_chart (df : List LedgerRow) (planRaw : Option RawTable) : MTDChart :=
  if dwGuard df planRaw then
    { labels := (groupDates df).map (fun p => dateLabel p.1),
      actual := (mtdActualExact df).map (roundTo 1),
      target := (mtdTargetExact df planRaw).map (roundTo 1) }
  else ⟨[], [], []⟩

-- ----------------------------------------------------------------
-- ASIN target vs actual (asin_target_vs_actual in services.py)
-- ----------------------------------------------------------------

/-- Model of filter_by_date_range: inclusive date window. -/
def filter_by_date_range (df : List LedgerRow) (f t : Date) : List LedgerRow :=
  df.filter (fun r => dateLE f r.date && dateLE r.date t)

/-- One output row of the ASIN reconciliation table. -/
structure AsinRow where
  asin : Str
  category : Cell
  target : ℚ
  actual : ℚ
  achievement : Str
deriving DecidableEq, Repr

/-- Result of asin_target_vs_actual: the two explicit no-data markers or
the reconciliation table (HTML rendering is the presentation layer). -/
inductive AsinReport where
  | noData
  | noPlan
  | table (rows : List AsinRow)
deriving DecidableEq, Repr

/-- Actual net sales of one ASIN in the filtered ledger, merged with
fillna(0): an ASIN with no rows reads as 0. -/
def asinActual (lf : List LedgerRow) (a : Str) : ℚ :=
  if a ∈ lf.map (fun r => r.asin) then
    ((lf.filter (fun r => r.asin = a)).map (fun r => r.net_sales)).sum
  else 0

/-- period_target of one plan row: per-day goal times distinct days,
with a missing goal read as NaN and then filled with 0 by fillna. -/
def asinPeriodTarget (pr : List Cell) (jp : ℕ) (days : ℕ) : ℚ :=
  ((cellQ? (getCell pr jp)).map (fun q => q * (days : ℚ))).getD 0

/-- Achievement cell: (actual / period_target * 100).round(1).astype(str)
with the percent suffix; the division follows pandas float semantics. -/
def achievementStr (act pt : ℚ) : Str :=
  pvStr (pvRound 1 (pvMulPos (pvDiv act pt) 100)) ++ s "%"

/-- Output row built from one plan row (the left-join keeps every plan
row; a category missing in the plan row is filled with 0 by fillna). -/
def asinOutRow (lf : List LedgerRow) (days : ℕ) (ja jc jp : ℕ)
    (pr : List Cell) : AsinRow :=
  let a := cellStr (getCell pr ja)
  let pt := asinPeriodTarget pr jp days
  let act := asinActual lf a
  { asin := a,
    category := if getCell pr jc = .na then .num 0 else getCell pr jc,
    target := roundTo 1 pt,
    actual := roundTo 1 act,
    achievement := achievementStr act pt }

/-- Model of asin_target_vs_actual in services.py.  An .error result
models the uncaught KeyError raised when the plan lacks a required
column; otherwise every plan row yields one output row (left join from
the plan's ASIN universe). -/
def asin_target_vs_actual (ledger : List LedgerRow) (f t : Date)
    (planRaw : Option RawTable) : Except String AsinReport :=
  let lf := filter_by_date_range ledger f t
  if lf.isEmpty then .ok .noData
  else
    let plan := load_planning_main planRaw
    if plan.isEmptyT then .ok .noPlan
    else
      match plan.colIdx (s "perdaygoalprojected") with
      | none => .error "KeyError: perdaygoalprojected"
      | some jp =>
        match plan.colIdx (s "asin") with
        | none => .error "KeyError: asin"
        | some ja =>
          match plan.colIdx (s "category") with
          | none => .error "KeyError: category"
          | some jc =>
            let days := nDays lf
            .ok (.table (plan.rows.map (asinOutRow lf days ja jc jp)))

-- ----------------------------------------------------------------
-- validation / audit engine (validation_summary in services.py)
-- ----------------------------------------------------------------

/-- Read-only validation report. -/
structure VReport where
  extra_asins : ℕ
  audio_array_b2b_rows : ℕ
  kpi_actual : ℚ
  daywise_sum : ℚ
  difference : ℚ
  reason : Str
deriving DecidableEq, Repr

/-- Column access on the raw ledger frame; a missing column is the
KeyError the surrounding try/except catches. -/
def vGetCol (t : RawTable) (name : Str) : Except String (List Cell) :=
  match t.colIdx name with
  | none => .error "KeyError"
  | some i => .ok (t.colCells i)

/-- Elementwise comparison date cell within [f, t]: missing dates compare
False; comparing text or numbers against a Timestamp is the TypeError the
surrounding try/except catches. -/
def vInWindow (f t : Date) (c : Cell) : Except String Bool :=
  match c with
  | .na => .ok false
  | .date d => .ok (dateLE f d && dateLE d t)
  | _ => .error "TypeError: cannot compare against Timestamp"

/-- The window filter of validation_summary, applied only when both
bounds are given. -/
def vFilter (t : RawTable) (f? t? : Option Date) : Except String RawTable :=
  match f?, t? with
  | some fd, some td =>
    match vGetCol t (s "date") with
    | .error e => .error e
    | .ok dc =>
      match exMap (vInWindow fd td) dc with
      | .error e => .error e
      | .ok mask =>
        .ok ⟨t.headers,
             (t.rows.zip mask).filterMap (fun p => if p.2 then some p.1 else none)⟩
  | _, _ => .ok t

/-- Reference date f or df["date"].max(): the column max skips missing
values; a max over text or numbers, or over no dates at all, is the
error the surrounding try/except catches. -/
def vRefDate (df : RawTable) (f? : Option Date) : Except String Date :=
  match f? with
  | some d => .ok d
  | none =>
    match vGetCol df (s "date") with
    | .error e => .error e
    | .ok dc =>
      match exMap (fun c => match c with
        | Cell.date d => .ok (some d)
        | Cell.na => .ok (none : Option Date)
        | _ => .error "TypeError: ordering mixed types") dc with
      | .error e => .error e
      | .ok ds =>
        match ds.filterMap id with
        | [] => .error "ValueError: strftime of NaT"
        | d :: rest => .ok (rest.foldl (fun a b => if dateLE a b then b else a) d)

/-- Elementwise pandas != between two cells: NaN compares unequal to
everything including NaN. -/
def cellNe (a b : Cell) : Bool :=
  match a, b with
  | .na, .na => true
  | x, y => x ≠ y

/-- Numeric reading of a cell with missing-as-zero, as used inside the
reconciliation sums. -/
def vq (c : Cell) : ℚ := (cellQ? c).getD 0

/-- Sum of the numeric values of a cell column (Series.sum, skipna). -/
def vSum (l : List Cell) : ℚ := (l.map vq).sum

/-- join of the diagnostic sentences with single spaces. -/
def joinSpace : List Str → Str
  | [] => []
  | [x] => x
  | x :: r => x ++ s " " ++ joinSpace r

/-- ASIN validation step: count of distinct ledger ASIN cells absent
from the plan's asin universe (0 when the plan is empty). -/
def vExtra (df : RawTable) (planRaw : Option RawTable) : Except String ℕ :=
  let plan := load_planning_main planRaw
  if plan.isEmptyT then .ok 0
  else
    match vGetCol df (s "ASIN") with
    | .error e => .error e
    | .ok ac =>
      .ok ((ac.dedup.filter (fun c => c ∉ (planAsins plan).map Cell.str)).length)

/-- Audio Array B2B check: rows of the flagged account whose gross and
net cells differ (pandas != counts NaN as unequal to NaN). -/
def vB2B (df : RawTable) : Except String ℕ :=
  match vGetCol df (s "account") with
  | .error e => .error e
  | .ok acct =>
    let aaRows := (df.rows.zip acct).filterMap
      (fun p => if p.2 = Cell.str (s "Nexlev") then some p.1 else none)
    if aaRows.isEmpty then .ok 0
    else
      match df.colIdx (s "sales"), df.colIdx (s "net_sales") with
      | some si, some ni =>
        .ok ((aaRows.filter (fun r => cellNe (getCell r si) (getCell r ni))).length)
      | _, _ => .error "KeyError"

/-- Day-wise reconciliation total: group the (date, net) pairs by date
cell, dropping missing keys as pandas groupby does, and sum the group
sums. -/
def vDaySum (dc netc : List Cell) : ℚ :=
  let pairs := dc.zip (netc.map vq)
  let keys := (dc.filter (fun c => c ≠ Cell.na)).dedup
  (keys.map (fun k => ((pairs.filter (fun p => p.1 = k)).map Prod.snd).sum)).sum

/-- Prioritized diagnostic text of the report. -/
def vReasonText (extra b2b : ℕ) (difference : ℚ) : Str :=
  let reasons :=
    (if 0 < extra then [s "Ledger contains ASINs not present in planning file."] else []) ++
    (if 0 < b2b then [s "Historical Audio Array B2B rows detected."] else [])
  let reasons :=
    if difference ≠ 0 ∧ reasons.isEmpty then
      [s "Difference due to partial month / missing days in selection."]
    else reasons
  if reasons.isEmpty then s "All validations passed. Data is consistent."
  else joinSpace reasons

/-- Assembled report: direct total, day-wise total, their difference
(all rounded to one decimal) and the diagnostic text. -/
def mkVReport (extra b2b : ℕ) (netc dc : List Cell) : VReport :=
  let kpiA := roundTo 1 (vSum netc)
  let daySum := roundTo 1 (vDaySum dc netc)
  let difference := roundTo 1 (kpiA - daySum)
  ⟨extra, b2b, kpiA, daySum, difference, vReasonText extra b2b difference⟩

/-- Body of validation_summary inside its try block: ok none is the
early return on an empty filtered frame, an .error is any internal
exception (caught by the wrapper). -/
def vBody (ledger : RawTable) (f? t? : Option Date) (planRaw : Option RawTable) :
    Except String (Option VReport) :=
  match vFilter ledger f? t? with
  | .error e => .error e
  | .ok df =>
    if df.isEmptyT then .ok none
    else
      match vRefDate df f? with
      | .error e => .error e
      | .ok _ =>
        match vExtra df planRaw with
        | .error e => .error e
        | .ok extra =>
          match vB2B df with
          | .error e => .error e
          | .ok b2b =>
            match vGetCol df (s "net_sales"), vGetCol df (s "date") with
            | .ok netc, .ok dc => .ok (some (mkVReport extra b2b netc dc))
            | .error e, _ => .error e
            | _, .error e => .error e

/-- Model of validation_summary: the try/except wrapper that turns any
internal exception into an absent report. -/
def validation_summary (ledger : RawTable) (f? t? : Option Date)
    (planRaw : Option RawTable) : Option VReport :=
  match vBody ledger f? t? planRaw with
  | .error _ => none
  | .ok r => r

-- ----------------------------------------------------------------
-- shared lemmas about the fallible map
-- ----------------------------------------------------------------

theorem exMap_ok_mem {f : α → Except String β} {l : List α} {bs : List β}
    (h : exMap f l = .ok bs) : ∀ b ∈ bs, ∃ a ∈ l, f a = .ok b := by
  induction l generalizing bs with
  | nil =>
    simp only [exMap] at h
    cases h
    intro b hb
    simp at hb
  | cons a t ih =>
    simp only [exMap] at h
    cases hfa : f a with
    | error e => rw [hfa] at h; cases h
    | ok b0 =>
      rw [hfa] at h
      cases hrec : exMap f t with
      | error e => rw [hrec] at h; cases h
      | ok bs0 =>
        rw [hrec] at h
        cases h
        intro b hb
        rcases List.mem_cons.mp hb with hb | hb
        · exact ⟨a, List.mem_cons_self .., by rw [hfa, hb]⟩
        · rcases ih hrec b hb with ⟨a1, ha1, hfa1⟩
          exact ⟨a1, List.mem_cons_of_mem _ ha1, hfa1⟩

/-- Every row an ok build_rows run returns carries a plan ASIN and the
channel's net-sales rule. -/
theorem build_rows_ok_mem {df : RawTable} {a : Str} {d : Date}
    {p : Option RawTable} {v : Bool} {rows : List LedgerRow}
    (h : build_rows df a d p v = .ok rows) :
    ∀ r ∈ rows, r.asin ∈ planAsins (load_planning_main p) ∧
      r.net_sales = (if v then r.sales else r.sales / (1 + GST_RATE)) := by
  simp only [build_rows] at h
  split at h
  · cases h; intro r hr; simp at hr
  · split at h
    · cases h; intro r hr; simp at hr
    · rename_i i hidx
      split at h
      · cases h; intro r hr; simp at hr
      · split at h
        · cases h; intro r hr; simp at hr
        · split at h
          · cases h; intro r hr; simp at hr
          · rename_i j hjdx
            intro r hr
            rcases exMap_ok_mem h r hr with ⟨q, hq, hfq⟩
            simp only [bind, Except.bind] at hfq
            cases hcm : cleanMoneyE (getCell q j) with
            | error e => rw [hcm] at hfq; cases hfq
            | ok g =>
              rw [hcm] at hfq
              cases hfq
              constructor
              · have := List.of_mem_filter hq
                simpa using this
              · cases v <;> simp

/-- C1.  For every row returned by build_rows: on the marketplace branch
(is_vendor false) net_sales is gross sales divided by 1 + GST_RATE
(that is, by 1.18); on the wholesale/vendor branch net_sales equals
gross sales. -/
theorem C1_net_sales_rule (df : RawTable) (a : Str) (d : Date)
    (p : Option RawTable) (rowsM rowsW : List LedgerRow)
    (hM : build_rows df a d p false = .ok rowsM)
    (hW : build_rows df a d p true = .ok rowsW) :
    (∀ r ∈ rowsM, r.net_sales = r.sales / (1 + GST_RATE)) ∧
    (∀ r ∈ rowsW, r.net_sales = r.sales) := by
  constructor
  · intro r hr
    simpa using (build_rows_ok_mem hM r hr).2
  · intro r hr
    simpa using (build_rows_ok_mem hW r hr).2

/-- C2.  build_rows returns no rows when the Main plan is empty, and every
returned row's ASIN is present in the plan's asin column, so an export
ASIN absent from the month's plan contributes zero rows. -/
theorem C2_plan_filter (df : RawTable) (a : Str) (d : Date)
    (p : Option RawTable) (v : Bool) (rows : List LedgerRow)
    (h : build_rows df a d p v = .ok rows) :
    ((load_planning_main p).isEmptyT = true → rows = []) ∧
    (∀ r ∈ rows, r.asin ∈ planAsins (load_planning_main p)) := by
  constructor
  · intro hEmpty
    simp only [build_rows] at h
    split at h
    · cases h; rfl
    · split at h
      · cases h; rfl
      · cases h
        rfl
  · intro r hr
    exact (build_rows_ok_mem h r hr).1

-- concrete ingestion inputs used by the witnesses

/-- Main planning sheet with one planned ASIN B0X. -/
def wPlanT : RawTable :=
  ⟨[s "asin", s "category", s "perdaygoalprojected", s "jangoalprojected"],
   [[.str (s "B0X"), .str (s "Audio"), .num 100, .num 3100]]⟩

/-- Raw channel export with one row for B0X (lower case, trailing blank,
rupee-formatted marketplace revenue, numeric wholesale revenue). -/
def wDf : RawTable :=
  ⟨[s "asin", s "orderedproductsales", s "orderedrevenue"],
   [[.str (s "b0x "), .str (s "₹1,180.00"), .num 590]]⟩

def wDate : Date := ⟨2025, 1, 2⟩

/-- Rows the marketplace ingestion returns on the concrete input. -/
def wRowsM : List LedgerRow :=
  match build_rows wDf (s "AA") wDate (some wPlanT) false with
  | .ok l => l
  | .error _ => []

/-- Rows the wholesale ingestion returns on the concrete input. -/
def wRowsW : List LedgerRow :=
  match build_rows wDf (s "AA") wDate (some wPlanT) true with
  | .ok l => l
  | .error _ => []

theorem C1_net_sales_rule_witness :
    wRowsM.length = 1 ∧ wRowsW.length = 1 ∧
    (∀ r ∈ wRowsM, r.net_sales = r.sales / (1 + GST_RATE)) ∧
    (∀ r ∈ wRowsW, r.net_sales = r.sales) :=
  ⟨rfl, rfl,
   (C1_net_sales_rule wDf (s "AA") wDate (some wPlanT) wRowsM wRowsW rfl rfl).1,
   (C1_net_sales_rule wDf (s "AA") wDate (some wPlanT) wRowsM wRowsW rfl rfl).2⟩

theorem C2_plan_filter_witness :
    wRowsM.length = 1 ∧
    ((load_planning_main (some wPlanT)).isEmptyT = true → wRowsM = []) ∧
    (∀ r ∈ wRowsM, r.asin ∈ planAsins (load_planning_main (some wPlanT))) :=
  ⟨rfl,
   (C2_plan_filter wDf (s "AA") wDate (some wPlanT) false wRowsM rfl).1,
   (C2_plan_filter wDf (s "AA") wDate (some wPlanT) false wRowsM rfl).2⟩

/-- C8 counterexample.  clean_money applied to the text abc: the cleaned
remainder is not a float literal, so float() raises ValueError (modelled
by none).  This falsifies the claim that the parser never raises and
that a malformed cell degrades to zero. -/
theorem C8_clean_money_counterexample :
    clean_money (Cell.str (s "abc")) = none ∧
    clean_money (Cell.str (s "abc")) ≠ some 0 :=
  ⟨rfl, by simp [show clean_money (Cell.str (s "abc")) = none from rfl]⟩

/-- C8 amended.  clean_money returns 0.0 on a missing/null marker and,
on text, strips the rupee sign, commas and the INR token and parses the
remainder as a float; when the remainder is a valid float literal the
parsed value is returned, and when it is not the function raises
(modelled by none) instead of degrading to zero, so one malformed cell
aborts the ingestion of its batch. -/
theorem C8_clean_money_amended (v w : Str) (q : ℚ)
    (hbad : parseFloat (cleanupMoney v) = none)
    (hgood : parseFloat (cleanupMoney w) = some q) :
    clean_money Cell.na = some 0 ∧
    clean_money (Cell.str v) = none ∧
    clean_money (Cell.str w) = some q := by
  refine ⟨rfl, ?_, ?_⟩
  · simpa [clean_money, cellStr] using hbad
  · simpa [clean_money, cellStr] using hgood

theorem C8_clean_money_amended_witness :
    clean_money Cell.na = some 0 ∧
    clean_money (Cell.str (s "xy")) = none ∧
    clean_money (Cell.str (s "₹1,180.00")) = some 1180 := by
  have hgood : parseFloat (cleanupMoney (s "₹1,180.00")) =
      some ((1180 : ℚ)) := by
    have h1 : parseFloat (cleanupMoney (s "₹1,180.00")) =
        some (1 * ((((1180:ℕ):ℚ)) + (((0:ℕ):ℚ)) / 10 ^ 2)) := rfl
    rw [h1]
    norm_num
  exact C8_clean_money_amended (s "xy") (s "₹1,180.00") 1180 rfl hgood

/-- C10.  The column normalizer is idempotent: re-normalizing an already
normalized header key leaves it unchanged. -/
theorem C10_norm_idempotent (x : Str) : norm (norm x) = norm x :=
  norm_idem_aux x

-- concrete KPI inputs for the C4 counterexample

/-- Plan whose per-day goal sums to a negative value. -/
def c4Plan : RawTable :=
  ⟨[s "asin", s "perdaygoalprojected", s "jangoalprojected"],
   [[.str (s "B0X"), .num (-1), .num 100]]⟩

def c4df : List LedgerRow := [⟨⟨2025, 1, 2⟩, s "AA", s "B0X", 2, 2⟩]

def c4Ref : Date := ⟨2025, 1, 15⟩

/-- C4 counterexample.  With a negative per-day goal the unrounded
target-till value is negative, hence not greater than zero, yet
calculate_kpis returns achievement -2 rather than the 0 the claim
requires for that case: the code tests target_till != 0, not > 0. -/
theorem C4_achievement_counterexample :
    kpiTargetTill c4df (some c4Plan) < 0 ∧
    (calculate_kpis c4df c4Ref (some c4Plan)).achievement = -2 := by
  have h2 : (load_planning_main (some c4Plan)).colIdx (s "perdaygoalprojected") =
      some 1 := by decide
  have h3 : (load_planning_main (some c4Plan)).colCells 1 = [.num (-1)] := by decide
  have hc : (load_planning_main (some c4Plan)).colSum (s "perdaygoalprojected") =
      -1 := by
    rw [RawTable.colSum, h2]
    simp [h3, cellQ?]
  have hdays : nDays c4df = 1 := by decide
  have htt : kpiTargetTill c4df (some c4Plan) = -1 := by
    rw [kpiTargetTill, hc, hdays]
    norm_num
  have hg : kpiGuard c4df c4Ref (some c4Plan) = true := by decide
  have hact : kpiActual c4df = 2 := by
    norm_num [kpiActual, c4df]
  constructor
  · rw [htt]; norm_num
  · rw [calculate_kpis, if_pos hg]
    simp only [htt, hact]
    norm_num

/-- C4 amended.  achievement and pace always carry the same value; both
equal actual divided by the unrounded target-till value whenever the
guard passes and that value is nonzero (also when it is negative), and 0
otherwise. -/
theorem C4_achievement_pace (df : List LedgerRow) (ref : Date)
    (p : Option RawTable) :
    (calculate_kpis df ref p).achievement = (calculate_kpis df ref p).pace ∧
    (calculate_kpis df ref p).achievement =
      (if kpiGuard df ref p ∧ kpiTargetTill df p ≠ 0
       then kpiActual df / kpiTargetTill df p else 0) := by
  constructor
  · rw [calculate_kpis]
    split
    · rfl
    · rfl
  · rw [calculate_kpis]
    by_cases hg : kpiGuard df ref p = true
    · rw [if_pos hg]
      by_cases ht : kpiTargetTill df p = 0
      · simp [hg, ht, zeroKPI]
      · simp [hg, ht, zeroKPI]
    · rw [if_neg hg]
      simp [zeroKPI, hg]

-- ----------------------------------------------------------------
-- lemmas about half-even rounding and cumulative sums
-- ----------------------------------------------------------------

theorem rhe_ge (q : ℚ) : ⌊q⌋ ≤ rhe q := by
  unfold rhe
  split_ifs <;> omega

theorem rhe_le (q : ℚ) : rhe q ≤ ⌊q⌋ + 1 := by
  unfold rhe
  split_ifs <;> omega

theorem rhe_mono {x y : ℚ} (h : x ≤ y) : rhe x ≤ rhe y := by
  have hf : ⌊x⌋ ≤ ⌊y⌋ := Int.floor_le_floor h
  rcases eq_or_lt_of_le hf with heq | hlt
  · unfold rhe
    rw [← heq]
    split_ifs <;> first | omega | linarith
  · calc rhe x ≤ ⌊x⌋ + 1 := rhe_le x
      _ ≤ ⌊y⌋ := hlt
      _ ≤ rhe y := rhe_ge y

theorem roundTo_mono (p : ℕ) {x y : ℚ} (h : x ≤ y) : roundTo p x ≤ roundTo p y := by
  unfold roundTo
  have h1 : rhe (x * 10 ^ p) ≤ rhe (y * 10 ^ p) :=
    rhe_mono (mul_le_mul_of_nonneg_right h (by positivity))
  have h2 : ((rhe (x * 10 ^ p) : ℚ)) ≤ ((rhe (y * 10 ^ p) : ℚ)) := by
    exact_mod_cast h1
  exact div_le_div_of_nonneg_right h2 (by positivity)

theorem cumsum_nonneg {l : List ℚ} (h : ∀ a ∈ l, 0 ≤ a) :
    ∀ y ∈ cumsum l, 0 ≤ y := by
  induction l with
  | nil => intro y hy; simp [cumsum] at hy
  | cons x t ih =>
    intro y hy
    simp only [cumsum, List.mem_cons, List.mem_map] at hy
    rcases hy with rfl | ⟨z, hz, rfl⟩
    · exact h y (List.mem_cons_self ..)
    · have hx : 0 ≤ x := h x (List.mem_cons_self ..)
      have hz0 : 0 ≤ z := ih (fun a ha => h a (List.mem_cons_of_mem _ ha)) z hz
      linarith

theorem cumsum_chain {l : List ℚ} (h : ∀ a ∈ l, 0 ≤ a) :
    List.Chain' (· ≤ ·) (cumsum l) := by
  induction l with
  | nil => simp [cumsum]
  | cons x t ih =>
    simp only [cumsum]
    rw [List.chain'_cons']
    constructor
    · intro y hy
      cases hc : cumsum t with
      | nil => rw [hc] at hy; simp at hy
      | cons z rest =>
        rw [hc] at hy
        simp at hy
        subst hy
        have hz : 0 ≤ z :=
          cumsum_nonneg (fun a ha => h a (List.mem_cons_of_mem _ ha)) z
            (by rw [hc]; exact List.mem_cons_self ..)
        linarith
    · exact List.chain'_map_of_chain' _ (fun a b hab => add_le_add_left hab x)
        (ih (fun a ha => h a (List.mem_cons_of_mem _ ha)))

theorem mtdTargets_step (pdt : ℚ) (n i : ℕ) (h : i + 1 < n) :
    (mtdTargets pdt n).getD (i + 1) 0 = (mtdTargets pdt n).getD i 0 + pdt := by
  have h0 : i < n := Nat.lt_of_succ_lt h
  have e : ∀ j, j < n → (mtdTargets pdt n).getD j 0 = pdt * ((j : ℚ) + 1) := by
    intro j hj
    rw [mtdTargets, List.getD_eq_getElem?_getD, List.getElem?_map,
      List.getElem?_range hj]
    rfl
  rw [e _ h, e _ h0]
  push_cast
  ring

/-- C5 amended.  For a slice with non-negative net sales the rounded
actual series of mtd_chart is monotonically non-decreasing, the returned
target series is the one-decimal rounding of the exact cumulative target
series, and that exact series steps by exactly per_day_target at each
position of the slice (the step is keyed to position, not calendar day);
the recurrence holds of the series before rounding, not after it. -/
theorem C5_mtd_chart (df : List LedgerRow) (p : Option RawTable)
    (hpos : ∀ r ∈ df, 0 ≤ r.net_sales) :
    List.Chain' (· ≤ ·) (mtd_chart df p).actual ∧
    (mtd_chart df p).target = (mtdTargetExact df p).map (roundTo 1) ∧
    (∀ i, i + 1 < (mtdTargetExact df p).length →
      (mtdTargetExact df p).getD (i + 1) 0 =
        (mtdTargetExact df p).getD i 0 + perDayTarget p) := by
  refine ⟨?_, ?_, ?_⟩
  · rw [mtd_chart]
    by_cases hg : dwGuard df p = true
    · rw [if_pos hg]
      simp only []
      have hnn : ∀ a ∈ (groupDates df).map (fun q => q.2), 0 ≤ a := by
        intro a ha
        rcases List.mem_map.mp ha with ⟨q, hq, rfl⟩
        rcases List.mem_map.mp hq with ⟨d, _, rfl⟩
        exact List.sum_nonneg (by
          intro x hx
          rcases List.mem_map.mp hx with ⟨r, hr, rfl⟩
          exact hpos r (List.mem_of_mem_filter hr))
      exact List.chain'_map_of_chain' _ (fun a b hab => roundTo_mono 1 hab)
        (cumsum_chain hnn)
    · rw [if_neg hg]
      simp
  · rw [mtd_chart]
    by_cases hg : dwGuard df p = true
    · rw [if_pos hg]
    · rw [if_neg hg]
      rw [mtdTargetExact, if_neg hg]
      rfl
  · intro i hi
    rw [mtdTargetExact] at hi ⊢
    by_cases hg : dwGuard df p = true
    · rw [if_pos hg] at hi ⊢
      simp only [mtdTargets, List.length_map, List.length_range] at hi
      exact mtdTargets_step _ _ _ hi
    · rw [if_neg hg] at hi
      simp at hi

-- concrete inputs for the C5 counterexample

/-- Plan whose per-day goal is not a multiple of 0.1. -/
def c5Plan : RawTable :=
  ⟨[s "asin", s "perdaygoalprojected"], [[.str (s "B0X"), .num (1 / 20)]]⟩

/-- Two-day slice with unit net sales. -/
def c5df : List LedgerRow :=
  [⟨⟨2025, 1, 1⟩, s "AA", s "B0X", 1, 1⟩,
   ⟨⟨2025, 1, 2⟩, s "AA", s "B0X", 1, 1⟩]

/-- C5 counterexample.  With per_day_target 0.05 the returned (rounded)
target series is [0.0, 0.1], whose second entry differs from the first
plus per_day_target: the recurrence claimed of target_series fails on
the one-decimal rounded values mtd_chart returns. -/
theorem C5_mtd_counterexample :
    perDayTarget (some c5Plan) = 1 / 20 ∧
    (mtd_chart c5df (some c5Plan)).target = [0, 1 / 10] ∧
    (0 : ℚ) + 1 / 20 ≠ 1 / 10 := by
  have hpdt : perDayTarget (some c5Plan) = 1 / 20 := by
    have h1 : perDayTarget (some c5Plan) = 1 / 20 + 0 := rfl
    rw [h1]
    norm_num
  refine ⟨hpdt, ?_, by norm_num⟩
  have hg : dwGuard c5df (some c5Plan) = true := rfl
  have hlen : (groupDates c5df).length = 2 := rfl
  rw [mtd_chart, if_pos hg]
  simp only []
  rw [mtdTargetExact, if_pos hg, hlen, hpdt]
  have hr2 : List.range 2 = [0, 1] := rfl
  rw [mtdTargets, hr2]
  simp only [List.map_cons, List.map_nil]
  norm_num [roundTo, rhe]

theorem C5_mtd_chart_witness :
    (∀ r ∈ c5df, 0 ≤ r.net_sales) ∧
    (List.Chain' (· ≤ ·) (mtd_chart c5df (some c5Plan)).actual ∧
     (mtd_chart c5df (some c5Plan)).target =
       (mtdTargetExact c5df (some c5Plan)).map (roundTo 1) ∧
     (∀ i, i + 1 < (mtdTargetExact c5df (some c5Plan)).length →
       (mtdTargetExact c5df (some c5Plan)).getD (i + 1) 0 =
         (mtdTargetExact c5df (some c5Plan)).getD i 0 +
           perDayTarget (some c5Plan))) :=
  ⟨by decide, C5_mtd_chart c5df (some c5Plan) (by decide)⟩

-- ----------------------------------------------------------------
-- partition lemmas: summing group sums equals summing everything
-- ----------------------------------------------------------------

theorem sum_map_ite_eq {κ : Type} [DecidableEq κ] (ks : List κ) (x : κ) (v : ℚ)
    (hN : ks.Nodup) (hx : x ∈ ks) :
    (ks.map (fun k => if x = k then v else 0)).sum = v := by
  induction ks with
  | nil => simp at hx
  | cons k t ih =>
    rcases List.mem_cons.mp hx with rfl | hx2
    · simp only [List.map_cons, List.sum_cons, if_pos rfl]
      have hz : (t.map (fun k => if x = k then v else 0)).sum = 0 := by
        apply List.sum_eq_zero
        intro y hy
        rcases List.mem_map.mp hy with ⟨k2, hk2, rfl⟩
        exact if_neg (by rintro rfl; exact (List.nodup_cons.mp hN).1 hk2)
      rw [hz, add_zero]
      simp
    · have hne : x ≠ k := by
        rintro rfl
        exact (List.nodup_cons.mp hN).1 hx2
      simp only [List.map_cons, List.sum_cons, if_neg hne, zero_add]
      exact ih (List.nodup_cons.mp hN).2 hx2

theorem sum_groupTotal {κ : Type} [DecidableEq κ] (l : List (κ × ℚ)) (ks : List κ)
    (hN : ks.Nodup) (hC : ∀ p ∈ l, p.1 ∈ ks) :
    (ks.map (fun k => ((l.filter (fun p => p.1 = k)).map Prod.snd).sum)).sum =
      (l.map Prod.snd).sum := by
  induction l with
  | nil => simp
  | cons a t ih =>
    have hCt : ∀ p ∈ t, p.1 ∈ ks := fun p hp => hC p (List.mem_cons_of_mem _ hp)
    have key : ∀ k, (((a :: t).filter (fun p => p.1 = k)).map Prod.snd).sum
        = (if a.1 = k then a.2 else 0) +
          ((t.filter (fun p => p.1 = k)).map Prod.snd).sum := by
      intro k
      by_cases hk : a.1 = k
      · rw [List.filter_cons_of_pos (by simpa using hk)]
        simp [hk]
      · rw [List.filter_cons_of_neg (by simpa using hk)]
        simp [hk]
    calc (ks.map (fun k => (((a :: t).filter (fun p => p.1 = k)).map Prod.snd).sum)).sum
        = (ks.map (fun k => (if a.1 = k then a.2 else 0) +
            ((t.filter (fun p => p.1 = k)).map Prod.snd).sum)).sum := by
          exact congrArg List.sum (List.map_congr_left (fun k _ => key k))
      _ = (ks.map (fun k => if a.1 = k then a.2 else 0)).sum +
            (ks.map (fun k => ((t.filter (fun p => p.1 = k)).map Prod.snd).sum)).sum :=
          List.sum_map_add
      _ = a.2 + (t.map Prod.snd).sum := by
          rw [sum_map_ite_eq ks a.1 a.2 hN (hC a (List.mem_cons_self ..)), ih hCt]
      _ = ((a :: t).map Prod.snd).sum := by simp

/-- Condition under which day_wise_performance returns its day records:
non-empty plan carrying the per-day goal column. -/
def planPerDayOk (p : Option RawTable) : Bool :=
  !(load_planning_main p).isEmptyT &&
    (load_planning_main p).hasCol (s "perdaygoalprojected")

theorem day_wise_sum (df : List LedgerRow) (p : Option RawTable)
    (hplan : planPerDayOk p = true) :
    ((day_wise_performance df p).map (fun x => x.actual)).sum =
      (df.map (fun x => x.net_sales)).sum := by
  by_cases hdf : df.isEmpty
  · have hnil : df = [] := List.isEmpty_iff.mp hdf
    subst hnil
    simp [day_wise_performance, dwGuard]
  · have hg : dwGuard df p = true := by
      unfold dwGuard planPerDayOk at *
      rw [Bool.and_assoc]
      simp only [Bool.and_eq_true] at hplan ⊢
      exact ⟨by simpa using hdf, hplan⟩
    rw [day_wise_performance, if_pos hg]
    rw [List.map_map]
    show ((groupDates df).map (fun q : Date × ℚ => q.2)).sum =
      (df.map (fun x => x.net_sales)).sum
    -- sum of group totals over sorted distinct dates equals the direct sum
    have hperm : (sortedDates df).Perm ((df.map (fun r => r.date)).dedup) :=
      sortL_perm _ _
    have hN : (sortedDates df).Nodup :=
      (hperm.nodup_iff).mpr (List.nodup_dedup _)
    have hC : ∀ q ∈ df.map (fun r => (r.date, r.net_sales)), q.1 ∈ sortedDates df := by
      intro q hq
      rcases List.mem_map.mp hq with ⟨r, hr, rfl⟩
      exact hperm.mem_iff.mpr (List.mem_dedup.mpr (List.mem_map_of_mem _ hr))
    have hmain := sum_groupTotal (df.map (fun r => (r.date, r.net_sales)))
      (sortedDates df) hN hC
    have h2 : ∀ d, ((df.map (fun r => (r.date, r.net_sales))).filter
        (fun q => q.1 = d)).map Prod.snd = (df.filter (fun r => r.date = d)).map
        (fun r => r.net_sales) := by
      intro d
      rw [List.filter_map]
      rw [List.map_map]
      rfl
    have h3 : (df.map (fun r => (r.date, r.net_sales))).map Prod.snd =
        df.map (fun r => r.net_sales) := by
      rw [List.map_map]
      rfl
    rw [h3] at hmain
    rw [groupDates, List.map_map]
    calc ((sortedDates df).map ((fun q : Date × ℚ => q.2) ∘
          (fun d => (d, dayNet df d)))).sum
        = ((sortedDates df).map (fun d => dayNet df d)).sum := rfl
      _ = (df.map (fun r => r.net_sales)).sum := by
          rw [← hmain]
          exact congrArg List.sum (List.map_congr_left (fun d _ => by
            rw [dayNet, ← h2 d]))

/-- Every cell of the ledger's date column (when present) is an actual
date, the shape build_rows always produces. -/
def allDateCells (l : RawTable) : Bool :=
  match l.colIdx (s "date") with
  | none => true
  | some i => (l.colCells i).all (fun c =>
      match c with
      | Cell.date _ => true
      | _ => false)

theorem vFilter_sub {ledger df : RawTable} {f? t? : Option Date}
    (h : vFilter ledger f? t? = .ok df) :
    df.headers = ledger.headers ∧ ∀ r ∈ df.rows, r ∈ ledger.rows := by
  unfold vFilter at h
  match f?, t? with
  | some fd, some td =>
    simp only [] at h
    cases h1 : vGetCol ledger (s "date") with
    | error e => rw [h1] at h; cases h
    | ok dc =>
      rw [h1] at h
      dsimp only at h
      cases h2 : exMap (vInWindow fd td) dc with
      | error e => rw [h2] at h; cases h
      | ok mask =>
        rw [h2] at h
        cases h
        refine ⟨rfl, ?_⟩
        intro r hr
        simp only [List.mem_filterMap] at hr
        rcases hr with ⟨q, hq, hq2⟩
        by_cases hb : q.2
        · rw [if_pos hb] at hq2
          cases hq2
          exact (List.of_mem_zip hq).1
        · rw [if_neg hb] at hq2
          cases hq2
  | none, some td => simp only [] at h; cases h; exact ⟨rfl, fun r hr => hr⟩
  | some fd, none => simp only [] at h; cases h; exact ⟨rfl, fun r hr => hr⟩
  | none, none => simp only [] at h; cases h; exact ⟨rfl, fun r hr => hr⟩

theorem allDateCells_mono {ledger df : RawTable} {f? t? : Option Date}
    (h : vFilter ledger f? t? = .ok df)
    (hall : allDateCells ledger = true) : allDateCells df = true := by
  rcases vFilter_sub h with ⟨hh, hsub⟩
  unfold allDateCells at hall ⊢
  rw [RawTable.colIdx, hh, ← RawTable.colIdx]
  cases hidx : ledger.colIdx (s "date") with
  | none => rfl
  | some i =>
    rw [hidx] at hall
    rw [List.all_eq_true] at hall ⊢
    intro c hc
    rcases List.mem_map.mp hc with ⟨r, hr, rfl⟩
    exact hall _ (List.mem_map_of_mem _ (hsub r hr))

theorem roundTo_zero (p : ℕ) : roundTo p 0 = 0 := by
  norm_num [roundTo, rhe]

/-- When every date cell of the ledger is a real date and validation
produces a report, the direct net-sales total and the day-wise total
agree exactly, so the reported difference is zero. -/
theorem vBody_difference {ledger : RawTable} {f? t? : Option Date}
    {pv : Option RawTable} {r : VReport}
    (hb : vBody ledger f? t? pv = .ok (some r))
    (hall : allDateCells ledger = true) : r.difference = 0 := by
  unfold vBody at hb
  cases hvf : vFilter ledger f? t? with
  | error e => rw [hvf] at hb; cases hb
  | ok df =>
    rw [hvf] at hb
    dsimp only at hb
    have hdall : allDateCells df = true := allDateCells_mono hvf hall
    by_cases he : df.isEmptyT
    · rw [if_pos he] at hb
      cases hb
    · rw [if_neg he] at hb
      cases hrd : vRefDate df f? with
      | error e => rw [hrd] at hb; cases hb
      | ok d0 =>
        rw [hrd] at hb
        dsimp only at hb
        cases hex : vExtra df pv with
        | error e => rw [hex] at hb; cases hb
        | ok extra =>
          rw [hex] at hb
          dsimp only at hb
          cases hb2 : vB2B df with
          | error e => rw [hb2] at hb; cases hb
          | ok b2b =>
            rw [hb2] at hb
            dsimp only at hb
            cases hnc : vGetCol df (s "net_sales") with
            | error e =>
              rw [hnc] at hb
              cases hdc2 : vGetCol df (s "date") with
              | error e2 => rw [hdc2] at hb; dsimp only at hb; cases hb
              | ok dc2 => rw [hdc2] at hb; dsimp only at hb; cases hb
            | ok netc =>
              rw [hnc] at hb
              cases hdc : vGetCol df (s "date") with
              | error e => rw [hdc] at hb; dsimp only at hb; cases hb
              | ok dc =>
                rw [hdc] at hb
                dsimp only at hb
                cases hb
                -- the report is mkVReport extra b2b netc dc
                show (mkVReport extra b2b netc dc).difference = 0
                -- identify the two columns
                unfold vGetCol at hnc hdc
                cases hj : df.colIdx (s "net_sales") with
                | none => rw [hj] at hnc; cases hnc
                | some j =>
                  rw [hj] at hnc
                  cases hnc
                  cases hi : df.colIdx (s "date") with
                  | none => rw [hi] at hdc; cases hdc
                  | some i =>
                    rw [hi] at hdc
                    cases hdc
                    -- all date cells are dates
                    have hdates : ∀ c ∈ df.colCells i,
                        (match c with
                         | Cell.date _ => true
                         | _ => false) = true := by
                      unfold allDateCells at hdall
                      rw [hi] at hdall
                      rw [List.all_eq_true] at hdall
                      exact fun c hc => hdall c hc
                    -- no NaN date keys, so no group is dropped
                    have hfil : (df.colCells i).filter (fun c => c ≠ Cell.na) =
                        df.colCells i := by
                      rw [List.filter_eq_self]
                      intro c hc
                      have := hdates c hc
                      cases c <;> simp_all
                    have hlen : (df.colCells i).length = (df.colCells j).length := by
                      simp [RawTable.colCells]
                    have hsnd : ((df.colCells i).zip
                        ((df.colCells j).map vq)).map Prod.snd =
                        (df.colCells j).map vq :=
                      List.map_snd_zip _ _ (by simp [hlen])
                    have hC : ∀ q ∈ (df.colCells i).zip ((df.colCells j).map vq),
                        q.1 ∈ (df.colCells i).dedup := by
                      intro q hq
                      exact List.mem_dedup.mpr (List.of_mem_zip hq).1
                    have hmain := sum_groupTotal
                      ((df.colCells i).zip ((df.colCells j).map vq))
                      ((df.colCells i).dedup) (List.nodup_dedup _) hC
                    rw [hsnd] at hmain
                    show roundTo 1 (roundTo 1 (vSum (df.colCells j)) -
                      roundTo 1 (vDaySum (df.colCells i) (df.colCells j))) = 0
                    have heq : vDaySum (df.colCells i) (df.colCells j) =
                        vSum (df.colCells j) := by
                      unfold vDaySum vSum
                      rw [hfil]
                      exact hmain
                    rw [heq, sub_self, roundTo_zero]

-- concrete inputs for C3

/-- One-row slice with net sales 5. -/
def c3df : List LedgerRow := [⟨⟨2025, 1, 1⟩, s "AA", s "B0X", 5, 5⟩]

/-- C3 counterexample.  With no planning reference available, day_wise
returns no day records, so the sum of its per-day actuals is 0 while the
direct net-sales sum of the same non-empty slice is 5: the aggregation
identity quantified over every ledger slice fails when the plan is
missing its per-day target. -/
theorem C3_daywise_counterexample :
    day_wise_performance c3df none = [] ∧
    (((day_wise_performance c3df none).map (fun x => x.actual)).sum : ℚ) = 0 ∧
    (c3df.map (fun r => r.net_sales)).sum = 5 ∧
    (((day_wise_performance c3df none).map (fun x => x.actual)).sum : ℚ) ≠
      (c3df.map (fun r => r.net_sales)).sum := by
  have h1 : day_wise_performance c3df none = [] := rfl
  have h2 : (c3df.map (fun r => r.net_sales)).sum = 5 := by
    norm_num [c3df]
  refine ⟨h1, by rw [h1]; rfl, h2, ?_⟩
  rw [h1, h2]
  norm_num

/-- C3 amended.  Whenever the Main plan supplies the per-day target
column, the sum of the per-day actuals returned by day_wise equals the
direct sum of net_sales over the same slice; and whenever the Validation
Engine returns a report on a ledger whose date column holds only real
dates, the difference between its direct total and its day-wise total is
zero.  (With an empty plan day_wise returns no records, and a missing
date makes groupby drop that row from the day-wise side.) -/
theorem C3_daywise_reconciliation (df : List LedgerRow) (p : Option RawTable)
    (ledger : RawTable) (f? t? : Option Date) (pv : Option RawTable) (r : VReport)
    (hplan : planPerDayOk p = true)
    (hall : allDateCells ledger = true)
    (hv : validation_summary ledger f? t? pv = some r) :
    ((day_wise_performance df p).map (fun x => x.actual)).sum =
      (df.map (fun x => x.net_sales)).sum ∧
    r.difference = 0 := by
  refine ⟨day_wise_sum df p hplan, ?_⟩
  unfold validation_summary at hv
  cases hb : vBody ledger f? t? pv with
  | error e => rw [hb] at hv; cases hv
  | ok ro =>
    rw [hb] at hv
    dsimp only at hv
    cases hv
    exact vBody_difference hb hall

-- concrete validation ledger for the C3 witness

/-- Ledger frame as the dashboard loads it from the store. -/
def wLedger : RawTable :=
  ⟨[s "date", s "account", s "ASIN", s "sales", s "net_sales"],
   [[.date ⟨2025, 1, 1⟩, .str (s "AA"), .str (s "B0X"), .num 5, .num 5]]⟩

/-- Report the validation engine returns on wLedger. -/
def wVR : VReport :=
  (validation_summary wLedger none none none).getD ⟨0, 0, 0, 0, 0, []⟩

theorem C3_daywise_reconciliation_witness :
    planPerDayOk (some wPlanT) = true ∧
    allDateCells wLedger = true ∧
    validation_summary wLedger none none none = some wVR ∧
    (((day_wise_performance c3df (some wPlanT)).map (fun x => x.actual)).sum =
      (c3df.map (fun x => x.net_sales)).sum ∧
     wVR.difference = 0) :=
  ⟨rfl, rfl, rfl,
   C3_daywise_reconciliation c3df (some wPlanT) wLedger none none none wVR
     rfl rfl rfl⟩

/-- C9.  The Validation Engine returns a full report or an explicit
absence: an empty filtered frame makes the body return absence (not an
error), any internal error of the body is turned into absence by the
try/except wrapper and never propagates, and every call yields either
none or some report. -/
theorem C9_validation_absence (ledger : RawTable) (f? t? : Option Date)
    (pv : Option RawTable) :
    (∀ df, vFilter ledger f? t? = .ok df → df.isEmptyT = true →
      vBody ledger f? t? pv = .ok none ∧
      validation_summary ledger f? t? pv = none) ∧
    (∀ e, vBody ledger f? t? pv = .error e →
      validation_summary ledger f? t? pv = none) ∧
    (validation_summary ledger f? t? pv = none ∨
      ∃ r, validation_summary ledger f? t? pv = some r) := by
  refine ⟨?_, ?_, ?_⟩
  · intro df hdf he
    have hb : vBody ledger f? t? pv = .ok none := by
      unfold vBody
      rw [hdf]
      dsimp only
      rw [if_pos he]
    refine ⟨hb, ?_⟩
    unfold validation_summary
    rw [hb]
  · intro e he
    unfold validation_summary
    rw [he]
  · cases h : validation_summary ledger f? t? pv with
    | none => exact Or.inl rfl
    | some r => exact Or.inr ⟨r, rfl⟩

/-- Ledger frame with no rows (empty store). -/
def wEmptyLedger : RawTable :=
  ⟨[s "date", s "account", s "ASIN", s "sales", s "net_sales"], []⟩

/-- Ledger frame lacking the date column, making the window filter raise
a KeyError inside the body. -/
def wBadLedger : RawTable := ⟨[s "account"], [[.str (s "AA")]]⟩

theorem C9_validation_absence_witness :
    (vBody wEmptyLedger none none none = .ok none ∧
     validation_summary wEmptyLedger none none none = none) ∧
    validation_summary wBadLedger (some ⟨2025, 1, 1⟩) (some ⟨2025, 1, 2⟩) none =
      none :=
  ⟨(C9_validation_absence wEmptyLedger none none none).1 wEmptyLedger rfl rfl,
   (C9_validation_absence wBadLedger (some ⟨2025, 1, 1⟩) (some ⟨2025, 1, 2⟩)
     none).2.1 "KeyError" rfl⟩

/-- When the filtered ledger is non-empty and the plan is non-empty with
its three columns, asin_target_vs_actual returns the merged table built
from every plan row. -/
theorem asin_tva_ok {ledger : List LedgerRow} {f t : Date} {p : Option RawTable}
    {jp ja jc : ℕ}
    (hne : (filter_by_date_range ledger f t).isEmpty = false)
    (hplanne : (load_planning_main p).isEmptyT = false)
    (hjp : (load_planning_main p).colIdx (s "perdaygoalprojected") = some jp)
    (hja : (load_planning_main p).colIdx (s "asin") = some ja)
    (hjc : (load_planning_main p).colIdx (s "category") = some jc) :
    asin_target_vs_actual ledger f t p =
      .ok (.table ((load_planning_main p).rows.map
        (asinOutRow (filter_by_date_range ledger f t)
          (nDays (filter_by_date_range ledger f t)) ja jc jp))) := by
  simp only [asin_target_vs_actual, hne, hplanne, hjp, hja, hjc,
    Bool.false_eq_true, if_false]

theorem q1Str_zero : q1Str 0 = s "0.0" := by
  have h0 : ((0 : ℚ) * 10) = 0 := by norm_num
  unfold q1Str
  rw [h0]
  norm_num [natStr, intStr]
  decide

/-- C6 amended.  With a non-empty filtered ledger and a non-empty plan
carrying its three columns, the table contains exactly one row per plan
row (so every planned ASIN appears, with the output asin column equal to
the plan's asin universe), and a planned ASIN with no ledger rows gets
Actual 0 and achievement 0.0% when its period target is nonzero —  a
zero (or missing) period target renders nan% instead of 0%. -/
theorem C6_asin_target_vs_actual (ledger : List LedgerRow) (f t : Date)
    (p : Option RawTable) (jp ja jc : ℕ)
    (hne : (filter_by_date_range ledger f t).isEmpty = false)
    (hplanne : (load_planning_main p).isEmptyT = false)
    (hjp : (load_planning_main p).colIdx (s "perdaygoalprojected") = some jp)
    (hja : (load_planning_main p).colIdx (s "asin") = some ja)
    (hjc : (load_planning_main p).colIdx (s "category") = some jc) :
    asin_target_vs_actual ledger f t p =
      .ok (.table ((load_planning_main p).rows.map
        (asinOutRow (filter_by_date_range ledger f t)
          (nDays (filter_by_date_range ledger f t)) ja jc jp))) ∧
    ((load_planning_main p).rows.map
        (asinOutRow (filter_by_date_range ledger f t)
          (nDays (filter_by_date_range ledger f t)) ja jc jp)).map
      (fun row => row.asin) = planAsins (load_planning_main p) ∧
    (∀ pr ∈ (load_planning_main p).rows,
      cellStr (getCell pr ja) ∉
          (filter_by_date_range ledger f t).map (fun r => r.asin) →
        (asinOutRow (filter_by_date_range ledger f t)
            (nDays (filter_by_date_range ledger f t)) ja jc jp pr).actual = 0 ∧
        (asinPeriodTarget pr jp (nDays (filter_by_date_range ledger f t)) ≠ 0 →
          (asinOutRow (filter_by_date_range ledger f t)
            (nDays (filter_by_date_range ledger f t)) ja jc jp pr).achievement =
            s "0.0%") ∧
        (asinPeriodTarget pr jp (nDays (filter_by_date_range ledger f t)) = 0 →
          (asinOutRow (filter_by_date_range ledger f t)
            (nDays (filter_by_date_range ledger f t)) ja jc jp pr).achievement =
            s "nan%")) := by
  refine ⟨asin_tva_ok hne hplanne hjp hja hjc, ?_, ?_⟩
  · rw [List.map_map, planAsins, hja]
    dsimp only
    simp only [RawTable.colCells, List.map_map]
    rfl
  · intro pr _ hnotin
    have ha : asinActual (filter_by_date_range ledger f t)
        (cellStr (getCell pr ja)) = 0 := by
      rw [asinActual, if_neg hnotin]
    refine ⟨?_, ?_, ?_⟩
    · show roundTo 1 (asinActual (filter_by_date_range ledger f t)
        (cellStr (getCell pr ja))) = 0
      rw [ha, roundTo_zero]
    · intro hpt
      show achievementStr (asinActual (filter_by_date_range ledger f t)
        (cellStr (getCell pr ja)))
        (asinPeriodTarget pr jp (nDays (filter_by_date_range ledger f t))) =
        s "0.0%"
      rw [ha, achievementStr, pvDiv, if_neg hpt, zero_div, pvMulPos, zero_mul,
        pvRound, roundTo_zero, pvStr, q1Str_zero]
      decide
    · intro hpt
      show achievementStr (asinActual (filter_by_date_range ledger f t)
        (cellStr (getCell pr ja)))
        (asinPeriodTarget pr jp (nDays (filter_by_date_range ledger f t))) =
        s "nan%"
      rw [ha, hpt]
      decide

-- concrete inputs for the C6 counterexample and witness

/-- Plan with two ASINs; B has a zero per-day goal. -/
def c6Plan : RawTable :=
  ⟨[s "asin", s "category", s "perdaygoalprojected"],
   [[.str (s "A"), .str (s "Cat"), .num 2],
    [.str (s "B"), .str (s "Cat"), .num 0]]⟩

/-- Ledger with revenue only for A. -/
def c6Ledger : List LedgerRow := [⟨⟨2025, 1, 1⟩, s "AA", s "A", 10, 10⟩]

def c6f : Date := ⟨2025, 1, 1⟩

def c6t : Date := ⟨2025, 1, 31⟩

/-- Default row used to read entries out of the report. -/
def dR : AsinRow := ⟨[], Cell.na, 0, 0, []⟩

/-- Rows of the report on the concrete input. -/
def c6Rows : List AsinRow :=
  match asin_target_vs_actual c6Ledger c6f c6t (some c6Plan) with
  | .ok (.table l) => l
  | _ => []

/-- C6 counterexample.  Planned ASIN B has no ledger rows and its Actual
is 0, but because its period target is 0 the achievement cell renders
nan% (0/0 under float semantics), not the 0% the claim requires for
every planned ASIN without sales. -/
theorem C6_asin_counterexample :
    c6Rows.length = 2 ∧
    (c6Rows.getD 1 dR).asin = s "B" ∧
    (c6Rows.getD 1 dR).actual = 0 ∧
    (c6Rows.getD 1 dR).achievement = s "nan%" ∧
    (c6Rows.getD 1 dR).achievement ≠ s "0.0%" ∧
    (c6Rows.getD 1 dR).achievement ≠ s "0%" := by
  have h1 : c6Rows.getD 1 dR =
      asinOutRow c6Ledger 1 0 1 2 [.str (s "B"), .str (s "Cat"), .num 0] := rfl
  have h2 : asinActual c6Ledger (s "B") = 0 := by
    rw [asinActual, if_neg (by decide)]
  have h3 : asinPeriodTarget [.str (s "B"), .str (s "Cat"), .num 0] 2 1 = 0 := by
    norm_num [asinPeriodTarget, getCell, cellQ?]
  have hach : (c6Rows.getD 1 dR).achievement = s "nan%" := by
    rw [h1]
    show achievementStr (asinActual c6Ledger (s "B"))
      (asinPeriodTarget [.str (s "B"), .str (s "Cat"), .num 0] 2 1) = s "nan%"
    rw [h2, h3]
    decide
  refine ⟨rfl, by rw [h1]; rfl, ?_, hach, ?_, ?_⟩
  · rw [h1]
    show roundTo 1 (asinActual c6Ledger (s "B")) = 0
    rw [h2, roundTo_zero]
  · rw [hach]; decide
  · rw [hach]; decide

theorem C6_asin_target_vs_actual_witness :
    ((filter_by_date_range c3df c6f c6t).isEmpty = false) ∧
    (asin_target_vs_actual c3df c6f c6t (some wPlanT) =
      .ok (.table ((load_planning_main (some wPlanT)).rows.map
        (asinOutRow (filter_by_date_range c3df c6f c6t)
          (nDays (filter_by_date_range c3df c6f c6t)) 0 1 2))) ∧
     ((load_planning_main (some wPlanT)).rows.map
        (asinOutRow (filter_by_date_range c3df c6f c6t)
          (nDays (filter_by_date_range c3df c6f c6t)) 0 1 2)).map
       (fun row => row.asin) = planAsins (load_planning_main (some wPlanT)) ∧
     (∀ pr ∈ (load_planning_main (some wPlanT)).rows,
       cellStr (getCell pr 0) ∉
           (filter_by_date_range c3df c6f c6t).map (fun r => r.asin) →
         (asinOutRow (filter_by_date_range c3df c6f c6t)
           (nDays (filter_by_date_range c3df c6f c6t)) 0 1 2 pr).actual = 0 ∧
         (asinPeriodTarget pr 2 (nDays (filter_by_date_range c3df c6f c6t)) ≠ 0 →
           (asinOutRow (filter_by_date_range c3df c6f c6t)
             (nDays (filter_by_date_range c3df c6f c6t)) 0 1 2 pr).achievement =
             s "0.0%") ∧
         (asinPeriodTarget pr 2 (nDays (filter_by_date_range c3df c6f c6t)) = 0 →
           (asinOutRow (filter_by_date_range c3df c6f c6t)
             (nDays (filter_by_date_range c3df c6f c6t)) 0 1 2 pr).achievement =
             s "nan%"))) :=
  ⟨rfl, C6_asin_target_vs_actual c3df c6f c6t (some wPlanT) 2 0 1
    rfl rfl (by decide) (by decide) (by decide)⟩

/-- C7 amended.  The achievement cell always equals
round(actual / period_target * 100, 1) rendered with a percent suffix
under pandas float division semantics, and the call returns a table
(no exception) whenever the plan carries its columns; but there is no
special case for a zero period target: with zero actual the cell renders
nan% and with positive actual it renders inf%, the IEEE quotients, not 0
or a dedicated sentinel. -/
theorem C7_achievement_rendering (ledger : List LedgerRow) (f t : Date)
    (p : Option RawTable) (jp ja jc : ℕ)
    (hne : (filter_by_date_range ledger f t).isEmpty = false)
    (hplanne : (load_planning_main p).isEmptyT = false)
    (hjp : (load_planning_main p).colIdx (s "perdaygoalprojected") = some jp)
    (hja : (load_planning_main p).colIdx (s "asin") = some ja)
    (hjc : (load_planning_main p).colIdx (s "category") = some jc) :
    (∃ rep, asin_target_vs_actual ledger f t p = .ok rep) ∧
    (∀ pr ∈ (load_planning_main p).rows,
      (asinOutRow (filter_by_date_range ledger f t)
          (nDays (filter_by_date_range ledger f t)) ja jc jp pr).achievement =
        pvStr (pvRound 1 (pvMulPos
          (pvDiv (asinActual (filter_by_date_range ledger f t)
              (cellStr (getCell pr ja)))
            (asinPeriodTarget pr jp (nDays (filter_by_date_range ledger f t))))
          100)) ++ s "%" ∧
      (asinPeriodTarget pr jp (nDays (filter_by_date_range ledger f t)) = 0 →
        asinActual (filter_by_date_range ledger f t) (cellStr (getCell pr ja)) = 0 →
        (asinOutRow (filter_by_date_range ledger f t)
          (nDays (filter_by_date_range ledger f t)) ja jc jp pr).achievement =
          s "nan%") ∧
      (asinPeriodTarget pr jp (nDays (filter_by_date_range ledger f t)) = 0 →
        0 < asinActual (filter_by_date_range ledger f t) (cellStr (getCell pr ja)) →
        (asinOutRow (filter_by_date_range ledger f t)
          (nDays (filter_by_date_range ledger f t)) ja jc jp pr).achievement =
          s "inf%")) := by
  refine ⟨⟨_, asin_tva_ok hne hplanne hjp hja hjc⟩, ?_⟩
  intro pr _
  refine ⟨rfl, ?_, ?_⟩
  · intro hpt hact
    show achievementStr (asinActual (filter_by_date_range ledger f t)
      (cellStr (getCell pr ja)))
      (asinPeriodTarget pr jp (nDays (filter_by_date_range ledger f t))) =
      s "nan%"
    rw [hpt, hact]
    decide
  · intro hpt hact
    show achievementStr (asinActual (filter_by_date_range ledger f t)
      (cellStr (getCell pr ja)))
      (asinPeriodTarget pr jp (nDays (filter_by_date_range ledger f t))) =
      s "inf%"
    rw [hpt, achievementStr, pvDiv, if_pos rfl, if_neg (by linarith),
      if_pos hact]
    decide

-- concrete inputs for the C7 counterexample

/-- Plan with one ASIN whose per-day goal is zero. -/
def c7Plan : RawTable :=
  ⟨[s "asin", s "category", s "perdaygoalprojected"],
   [[.str (s "A"), .str (s "Cat"), .num 0]]⟩

/-- Ledger with positive revenue for that ASIN. -/
def c7Ledger : List LedgerRow := [⟨⟨2025, 1, 1⟩, s "AA", s "A", 10, 10⟩]

/-- Rows of the report on the concrete input. -/
def c7Rows : List AsinRow :=
  match asin_target_vs_actual c7Ledger c6f c6t (some c7Plan) with
  | .ok (.table l) => l
  | _ => []

/-- C7 counterexample.  A planned ASIN with zero period target and
positive revenue renders inf% — the unbounded IEEE quotient — so the
division by a zero target is not special-cased to 0 or a dedicated
sentinel as the claim states (though no exception is raised). -/
theorem C7_achievement_counterexample :
    c7Rows.length = 1 ∧
    asinPeriodTarget [.str (s "A"), .str (s "Cat"), .num 0] 2 1 = 0 ∧
    (c7Rows.getD 0 dR).achievement = s "inf%" ∧
    (c7Rows.getD 0 dR).achievement ≠ s "0.0%" ∧
    (c7Rows.getD 0 dR).achievement ≠ s "0%" := by
  have h1 : c7Rows.getD 0 dR =
      asinOutRow c7Ledger 1 0 1 2 [.str (s "A"), .str (s "Cat"), .num 0] := rfl
  have h2 : asinActual c7Ledger (s "A") = 10 := by
    rw [asinActual, if_pos (by decide)]
    have hf : c7Ledger.filter (fun r => r.asin = s "A") = c7Ledger := rfl
    rw [hf]
    norm_num [c7Ledger]
  have h3 : asinPeriodTarget [.str (s "A"), .str (s "Cat"), .num 0] 2 1 = 0 := by
    norm_num [asinPeriodTarget, getCell, cellQ?]
  have hach : (c7Rows.getD 0 dR).achievement = s "inf%" := by
    rw [h1]
    show achievementStr (asinActual c7Ledger (s "A"))
      (asinPeriodTarget [.str (s "A"), .str (s "Cat"), .num 0] 2 1) = s "inf%"
    rw [h2, h3]
    decide
  exact ⟨rfl, h3, hach, by rw [hach]; decide, by rw [hach]; decide⟩

theorem C7_achievement_rendering_witness :
    ((filter_by_date_range c7Ledger c6f c6t).isEmpty = false) ∧
    ((∃ rep, asin_target_vs_actual c7Ledger c6f c6t (some c7Plan) = .ok rep) ∧
     (∀ pr ∈ (load_planning_main (some c7Plan)).rows,
       (asinOutRow (filter_by_date_range c7Ledger c6f c6t)
           (nDays (filter_by_date_range c7Ledger c6f c6t)) 0 1 2 pr).achievement =
         pvStr (pvRound 1 (pvMulPos
           (pvDiv (asinActual (filter_by_date_range c7Ledger c6f c6t)
               (cellStr (getCell pr 0)))
             (asinPeriodTarget pr 2 (nDays (filter_by_date_range c7Ledger c6f c6t))))
           100)) ++ s "%" ∧
       (asinPeriodTarget pr 2 (nDays (filter_by_date_range c7Ledger c6f c6t)) = 0 →
         asinActual (filter_by_date_range c7Ledger c6f c6t)
           (cellStr (getCell pr 0)) = 0 →
         (asinOutRow (filter_by_date_range c7Ledger c6f c6t)
           (nDays (filter_by_date_range c7Ledger c6f c6t)) 0 1 2 pr).achievement =
           s "nan%") ∧
       (asinPeriodTarget pr 2 (nDays (filter_by_date_range c7Ledger c6f c6t)) = 0 →
         0 < asinActual (filter_by_date_range c7Ledger c6f c6t)
           (cellStr (getCell pr 0)) →
         (asinOutRow (filter_by_date_range c7Ledger c6f c6t)
           (nDays (filter_by_date_range c7Ledger c6f c6t)) 0 1 2 pr).achievement =
           s "inf%"))) :=
  ⟨rfl, C7_achievement_rendering c7Ledger c6f c6t (some c7Plan) 2 0 1
    rfl rfl (by decide) (by decide) (by decide)⟩
